import Mathlib

/-!
Verification development for the strategy backtesting engine
(`backtesting_engine.py` of the Indian-Stock-Price-Prediction repository).

The engine is embedded shallowly over exact rational arithmetic (`ℚ` in
place of Python floats; none of the claims under study concerns float
rounding).  Pandas `NaN` entries (indicator warm-up values, undefined
ratios) are embedded as `none : Option ℚ`; a comparison against `NaN` is
`false`, exactly as in pandas/numpy.  Python `int()` truncation toward
zero is embedded by `pyInt`.  Bar timestamps are embedded by their
integer index, which is faithful because the code only ever copies the
timestamp `self.data.index[i]` into output records.
-/

/-- Python `int(q)`: truncation toward zero (floor for non-negative,
ceiling for negative arguments). -/
def pyInt (q : ℚ) : ℤ := if 0 ≤ q then ⌊q⌋ else ⌈q⌉

/-- The trailing window of width `w` ending at index `i`:
`xs[i+1-w : i+1]` in Python slice terms. -/
def windowAt (xs : List ℚ) (w i : ℕ) : List ℚ := (xs.take (i + 1)).drop (i + 1 - w)

/-- Embeds `Series.rolling(window=w).mean()` at index `i`: the mean of the trailing
`w` entries, `NaN` (here `none`) while fewer than `w` entries exist.
Mirrors `self.data['Close'].rolling(window=w).mean()` in `load_data`. -/
def rollingMeanAt (xs : List ℚ) (w i : ℕ) : Option ℚ :=
  if w ≤ i + 1 then some ((windowAt xs w i).sum / (w : ℚ)) else none

/-- Sample mean-square deviation with `ddof=1` (the pandas default
for `.std()`, squared): `Σ (x - mean)² / (n - 1)`. -/
def sampleVariance (l : List ℚ) : ℚ :=
  let n : ℚ := l.length
  let m : ℚ := l.sum / n
  (l.map (fun x => (x - m) ^ 2)).sum / (n - 1)

/-- Population mean-square deviation: `Σ (x - mean)² / n`. -/
def populationVariance (l : List ℚ) : ℚ :=
  let n : ℚ := l.length
  let m : ℚ := l.sum / n
  (l.map (fun x => (x - m) ^ 2)).sum / n

/-- The square of the Bollinger `bb_std` column: the code computes
`self.data['Close'].rolling(window=20).std()` (pandas default `ddof=1`,
i.e. the sample standard deviation), so its square is the trailing
20-bar sample variance; `none` during warm-up. -/
def bb_std_sq (xs : List ℚ) (i : ℕ) : Option ℚ :=
  if 20 ≤ i + 1 then some (sampleVariance (windowAt xs 20 i)) else none

/-- Embeds `Series.pct_change().dropna()`: consecutive relative changes; the
leading `NaN` is dropped. -/
def pct_change (l : List ℚ) : List ℚ :=
  (l.zip l.tail).map (fun pr => (pr.2 - pr.1) / pr.1)

/-- The square of `daily_returns.std()` in `calculate_metrics` (pandas
default `ddof=1`): the sample variance of the per-bar equity percentage
changes.  The Sharpe ratio itself is `mean / std * √252`, an irrational
number; every claim about it concerns which variance convention this
standard deviation uses, so the variance is what is embedded. -/
def sharpe_std_sq (equity : List ℚ) : ℚ := sampleVariance (pct_change equity)

/-- The `gain` series of `_calculate_rsi`:
`delta = prices.diff(); gain = delta.where(delta > 0, 0)`.
The leading `diff` entry is `NaN`, and `NaN > 0` is `False`, so `.where`
replaces it by `0`: the series is total, with `0` at index 0. -/
def gainsList (xs : List ℚ) : List ℚ :=
  match xs with
  | [] => []
  | _ :: _ => 0 :: (xs.zip xs.tail).map (fun pr => if pr.1 < pr.2 then pr.2 - pr.1 else 0)

/-- The `loss` series of `_calculate_rsi`:
`loss = (-delta.where(delta < 0, 0))`, with `0` at index 0 as above. -/
def lossesList (xs : List ℚ) : List ℚ :=
  match xs with
  | [] => []
  | _ :: _ => 0 :: (xs.zip xs.tail).map (fun pr => if pr.2 < pr.1 then pr.1 - pr.2 else 0)

/-- Embeds `gain.rolling(window=period).mean()` at index `i`. -/
def avg_gain (xs : List ℚ) (period i : ℕ) : Option ℚ := rollingMeanAt (gainsList xs) period i

/-- Embeds `loss.rolling(window=period).mean()` at index `i`. -/
def avg_loss (xs : List ℚ) (period i : ℕ) : Option ℚ := rollingMeanAt (lossesList xs) period i

/-- Embeds `_calculate_rsi` at index `i`: `rs = gain / loss; rsi = 100 - 100/(1+rs)`.
Float semantics of the two divisions (numpy): for `loss > 0` the value is
finite; for `loss = 0 < gain`, `rs = +inf` and `100 - 100/(1+inf) = 100`;
for `gain = loss = 0`, `rs = 0/0 = NaN` and the result is `NaN` (`none`).
During warm-up both rolling means are `NaN`, hence `none`. -/
def calculate_rsi (xs : List ℚ) (period i : ℕ) : Option ℚ :=
  match avg_gain xs period i, avg_loss xs period i with
  | some g, some l =>
      if l = 0 then (if g = 0 then none else some 100)
      else some (100 - 100 / (1 + g / l))
  | _, _ => none

/-- The recurrence of `Series.ewm(span, adjust=False).mean()` after the
first entry: `ema[i] = a*x[i] + (1-a)*ema[i-1]`. -/
def emaFrom (a : ℚ) (prev : ℚ) : List ℚ → List ℚ
  | [] => []
  | x :: t =>
      let e := a * x + (1 - a) * prev
      e :: emaFrom a e t

/-- Embeds `Series.ewm(span=span, adjust=False).mean()`: `ema[0] = x[0]`,
`a = 2/(span+1)`. -/
def ewmMean (span : ℕ) : List ℚ → List ℚ
  | [] => []
  | x :: t => x :: emaFrom (2 / ((span : ℚ) + 1)) x t

/-- The `MACD` column: `EMA(Close, 12) - EMA(Close, 26)` pointwise. -/
def macdList (xs : List ℚ) : List ℚ :=
  List.zipWith (fun a b => a - b) (ewmMean 12 xs) (ewmMean 26 xs)

/-- The `MACD_signal` column: `EMA(MACD, 9)`. -/
def macdSignalList (xs : List ℚ) : List ℚ := ewmMean 9 (macdList xs)

/-- Comparison `a <= b` on possibly-`NaN` floats: `false` whenever either side is `NaN`. -/
def oleB : Option ℚ → Option ℚ → Bool
  | some a, some b => decide (a ≤ b)
  | _, _ => false

/-- Comparison `a < b` on possibly-`NaN` floats: `false` whenever either side is `NaN`. -/
def oltB : Option ℚ → Option ℚ → Bool
  | some a, some b => decide (a < b)
  | _, _ => false

/-- Comparison `a < b` with a possibly-`NaN` left operand and a plain float right
operand (`rsi < oversold`). -/
def oltScalar (a : Option ℚ) (b : ℚ) : Bool :=
  match a with
  | some a => decide (a < b)
  | none => false

/-- Comparison `a > b` with a possibly-`NaN` left operand (`rsi > overbought`). -/
def ogtScalar (a : Option ℚ) (b : ℚ) : Bool :=
  match a with
  | some a => decide (b < a)
  | none => false

/-- Condition `price <= BB_lower[i]`, i.e. `price ≤ m - 2·√v` where `m` is the
20-bar rolling mean and `v` the 20-bar sample variance.  Since `√v ≥ 0`,
this is equivalent to `0 ≤ m - price ∧ 4·v ≤ (m - price)²`, which is the
form used here because `√v` is irrational; `false` during warm-up (`NaN`
comparison). -/
def bbBelowLower (price : ℚ) (m v : Option ℚ) : Bool :=
  match m, v with
  | some m, some v => decide (0 ≤ m - price ∧ 4 * v ≤ (m - price) ^ 2)
  | _, _ => false

/-- Condition `price >= BB_upper[i]`, i.e. `price ≥ m + 2·√v`, embedded as
`0 ≤ price - m ∧ 4·v ≤ (price - m)²` as in `bbBelowLower`. -/
def bbAboveUpper (price : ℚ) (m v : Option ℚ) : Bool :=
  match m, v with
  | some m, some v => decide (0 ≤ price - m ∧ 4 * v ≤ (price - m) ^ 2)
  | _, _ => false

/-- The keyword parameters of `run_strategy`, with the defaults the code
supplies through `params.get(..., default)`. -/
structure Params where
  short_ma : ℕ := 20
  long_ma : ℕ := 50
  oversold : ℚ := 30
  overbought : ℚ := 70
deriving DecidableEq

/-- One record of `self.trades`.  `BUY` rows carry no `profit` keys, so
those fields are `none` there. -/
structure TradeRec where
  date : ℕ
  side : String
  price : ℚ
  shares : ℤ
  value : ℚ
  profit : Option ℚ
  profit_pct : Option ℚ
  capital : ℚ
deriving DecidableEq

/-- One record of `self.equity_curve`. -/
structure EquityPoint where
  date : ℕ
  equity : ℚ
  position : ℕ
deriving DecidableEq

/-- The loop-local state of `run_strategy` together with the two output
lists it appends to (`position` is `0` for flat, `1` for long, exactly
the integers the code uses). -/
structure RunState where
  position : ℕ
  entry_price : ℚ
  shares : ℤ
  capital : ℚ
  equity : ℚ
  trades : List TradeRec
  equity_curve : List EquityPoint
deriving DecidableEq

/-- The strategy-dispatch block of `run_strategy` at bar `i`: the pair
`(buy_signal, sell_signal)`.  Every branch embeds the code's condition
verbatim, including the `position == 0` / `position == 1` conjuncts; a
strategy name other than the four known ones leaves both flags `False`. -/
def signals (strategy : String) (p : Params) (xs : List ℚ) (i : ℕ) (position : ℕ) :
    Bool × Bool :=
  if strategy = "MA_CROSSOVER" then
    let prevS := if p.short_ma = 20 then rollingMeanAt xs 20 (i - 1) else rollingMeanAt xs 50 (i - 1)
    let curS := if p.short_ma = 20 then rollingMeanAt xs 20 i else rollingMeanAt xs 50 i
    let prevL := rollingMeanAt xs 50 (i - 1)
    let curL := rollingMeanAt xs 50 i
    if oleB prevS prevL && oltB curL curS && position == 0 then (true, false)
    else if oleB prevL prevS && oltB curS curL && position == 1 then (false, true)
    else (false, false)
  else if strategy = "RSI_OVERSOLD" then
    let r := calculate_rsi xs 14 i
    if oltScalar r p.oversold && position == 0 then (true, false)
    else if ogtScalar r p.overbought && position == 1 then (false, true)
    else (false, false)
  else if strategy = "MACD_CROSSOVER" then
    let pm := (macdList xs).getD (i - 1) 0
    let cm := (macdList xs).getD i 0
    let ps := (macdSignalList xs).getD (i - 1) 0
    let cs := (macdSignalList xs).getD i 0
    if decide (pm ≤ ps) && decide (cs < cm) && position == 0 then (true, false)
    else if decide (ps ≤ pm) && decide (cm < cs) && position == 1 then (false, true)
    else (false, false)
  else if strategy = "BOLLINGER_BANDS" then
    let price := xs.getD i 0
    let m := rollingMeanAt xs 20 i
    let v := bb_std_sq xs i
    if bbBelowLower price m v && position == 0 then (true, false)
    else if bbAboveUpper price m v && position == 1 then (false, true)
    else (false, false)
  else (false, false)

/-- The `# Execute trades` block of `run_strategy` at bar `i`: the
`if buy_signal and capital > 0` / `elif sell_signal and position == 1`
cascade.  When `shares == 0` the buy is a no-op apart from the (dead)
assignment to the `shares` variable, which is reproduced faithfully. -/
def execBar (strategy : String) (p : Params) (xs : List ℚ) (i : ℕ) (s : RunState) : RunState :=
  let price := xs.getD i 0
  let sig := signals strategy p xs i s.position
  if sig.1 ∧ 0 < s.capital then
    let sh := pyInt (s.capital / price)
    if 0 < sh then
      let cost := (sh : ℚ) * price
      { s with
        entry_price := price
        shares := sh
        capital := s.capital - cost
        position := 1
        trades := s.trades ++ [{ date := i
                                 side := "BUY"
                                 price := price
                                 shares := sh
                                 value := cost
                                 profit := none
                                 profit_pct := none
                                 capital := s.capital - cost }] }
    else { s with shares := sh }
  else if sig.2 ∧ s.position = 1 then
    let proceeds := (s.shares : ℚ) * price
    let profit := proceeds - (s.shares : ℚ) * s.entry_price
    let profit_pct := profit / ((s.shares : ℚ) * s.entry_price) * 100
    { s with
      capital := s.capital + proceeds
      position := 0
      shares := 0
      trades := s.trades ++ [{ date := i
                               side := "SELL"
                               price := price
                               shares := s.shares
                               value := proceeds
                               profit := some profit
                               profit_pct := some profit_pct
                               capital := s.capital + proceeds }] }
  else s

/-- One full iteration of the bar loop: trade execution, then the
`# Calculate equity` block appending one `EquityPoint`. -/
def stepBar (strategy : String) (p : Params) (xs : List ℚ) (i : ℕ) (s : RunState) : RunState :=
  let s1 := execBar strategy p xs i s
  let price := xs.getD i 0
  let eq := if s1.position = 1 then s1.capital + (s1.shares : ℚ) * price else s1.capital
  { s1 with
    equity := eq
    equity_curve := s1.equity_curve ++ [{ date := i, equity := eq, position := s1.position }] }

/-- The state at the top of the bar loop after the `# Reset` block:
`self.trades` is reset to `[]`, but `self.equity_curve` is NOT reset —
the loop keeps appending to whatever the engine already holds, which is
why the pre-existing curve `prior` is part of the initial state. -/
def initState (ic : ℚ) (prior : List EquityPoint) : RunState :=
  { position := 0, entry_price := 0, shares := 0, capital := ic, equity := ic
    trades := [], equity_curve := prior }

/-- Embeds `for i in range(1, len(self.data))`: fold `stepBar` over indices
`1 .. N-1`. -/
def runLoop (strategy : String) (p : Params) (xs : List ℚ) (s0 : RunState) : RunState :=
  ((List.range xs.length).drop 1).foldl (fun s i => stepBar strategy p xs i s) s0

/-- The SELL record synthesized by the `# Close any open positions at the
end` block, at the final bar's close. -/
def closeRecord (xs : List ℚ) (s : RunState) : TradeRec :=
  let final_price := xs.getD (xs.length - 1) 0
  let proceeds := (s.shares : ℚ) * final_price
  let profit := proceeds - (s.shares : ℚ) * s.entry_price
  { date := xs.length - 1
    side := "SELL"
    price := final_price
    shares := s.shares
    value := proceeds
    profit := some profit
    profit_pct := some (profit / ((s.shares : ℚ) * s.entry_price) * 100)
    capital := s.capital + proceeds }

/-- The `if position == 1:` forced-close block after the loop.  Note the
code appends the SELL and credits the proceeds but never writes
`position = 0` or `shares = 0`; the embedding reproduces this. -/
def forcedClose (xs : List ℚ) (s : RunState) : RunState :=
  if s.position = 1 then
    { s with
      capital := s.capital + ((s.shares : ℚ) * xs.getD (xs.length - 1) 0)
      trades := s.trades ++ [closeRecord xs s] }
  else s

/-- Embeds `run_strategy` on data `xs` with pre-existing equity curve `prior`:
reset, bar loop, forced close. -/
def run_strategy_core (ic : ℚ) (prior : List EquityPoint) (strategy : String) (p : Params)
    (xs : List ℚ) : RunState :=
  forcedClose xs (runLoop strategy p xs (initState ic prior))

/-- The persistent fields of a `BacktestingEngine` object relevant to the
claims (`self.data` as its Close column, `self.trades`,
`self.equity_curve`). -/
structure Engine where
  initial_capital : ℚ
  data : List ℚ
  trades : List TradeRec
  equity_curve : List EquityPoint
deriving DecidableEq

/-- The method `run_strategy`: runs the core and stores the resulting
ledger and (accumulated) equity curve back on the object. -/
def Engine.run_strategy (e : Engine) (strategy : String) (p : Params) : Engine :=
  let r := run_strategy_core e.initial_capital e.equity_curve strategy p e.data
  { e with trades := r.trades, equity_curve := r.equity_curve }

/-- The rational-valued entries of the metrics dict (every entry except
`Sharpe Ratio`, whose value is irrational and is treated separately via
`sharpe_std_sq`). -/
structure MetricsDict where
  initial_capital : ℚ
  final_equity : ℚ
  total_return : ℚ
  total_trades : ℕ
  profitable_trades : ℕ
  win_rate : ℚ
  avg_profit : ℚ
  avg_profit_pct : ℚ
  max_drawdown : ℚ
  buy_hold_return : ℚ
  alpha : ℚ
deriving DecidableEq

/-- What a call to `calculate_metrics` can do: return the empty dict `{}`
(empty equity curve), raise (modelled as `err` with the exception text),
or return the metrics dict. -/
inductive MetricsOutcome where
  | emptyDict : MetricsOutcome
  | err : String → MetricsOutcome
  | metrics : MetricsDict → MetricsOutcome
deriving DecidableEq

/-- Helper for `expanding().max()`: continued with running maximum `m`. -/
def runningMaxFrom (m : ℚ) : List ℚ → List ℚ
  | [] => []
  | x :: t =>
      let m2 := max m x
      m2 :: runningMaxFrom m2 t

/-- Embeds `Series.expanding().max()`: the running maximum, seeded by the first
element. -/
def runningMax : List ℚ → List ℚ
  | [] => []
  | x :: t => x :: runningMaxFrom x t

/-- Embeds `Series.min()` of a (nonempty) series. -/
def listMin (l : List ℚ) : ℚ := l.foldl min (l.headD 0)

/-- Embeds `calculate_metrics`.  With an empty equity curve the code returns
`{}`.  Otherwise it builds `trades_df = pd.DataFrame(self.trades)` and
immediately evaluates `trades_df['type']`; a DataFrame built from an
empty list has no columns at all, so this raises `KeyError: 'type'` —
modelled by the `err` outcome.  With a nonempty ledger all statistics
are computed as in the source (the profit test `profit > 0` is `False`
on the `NaN` profit of BUY rows, hence the `Option.getD`-free match). -/
def calculate_metrics (e : Engine) : MetricsOutcome :=
  if e.equity_curve.isEmpty then .emptyDict
  else if e.trades.isEmpty then .err "KeyError: type"
  else
    let equities := e.equity_curve.map (·.equity)
    let final_equity := (equities.getLast?).getD 0
    let total_return := (final_equity - e.initial_capital) / e.initial_capital * 100
    let sells := e.trades.filter (fun t => t.side == "SELL")
    let profitable := (e.trades.filter (fun t =>
      t.side == "SELL" && (match t.profit with
        | some pr => decide (0 < pr)
        | none => false))).length
    let total_trades := sells.length
    let win_rate := if 0 < total_trades then (profitable : ℚ) / (total_trades : ℚ) * 100 else 0
    let avg_profit :=
      if 0 < sells.length then
        (sells.map (fun t => t.profit.getD 0)).sum / (sells.length : ℚ)
      else 0
    let avg_profit_pct :=
      if 0 < sells.length then
        (sells.map (fun t => t.profit_pct.getD 0)).sum / (sells.length : ℚ)
      else 0
    let rm := runningMax equities
    let drawdown := (equities.zip rm).map (fun pr => (pr.1 - pr.2) / pr.2 * 100)
    let max_drawdown := listMin drawdown
    let buy_hold := ((e.data.getLast?).getD 0 - e.data.headD 0) / e.data.headD 0 * 100
    .metrics
      { initial_capital := e.initial_capital
        final_equity := final_equity
        total_return := total_return
        total_trades := total_trades
        profitable_trades := profitable
        win_rate := win_rate
        avg_profit := avg_profit
        avg_profit_pct := avg_profit_pct
        max_drawdown := max_drawdown
        buy_hold_return := buy_hold
        alpha := total_return - buy_hold }

/-- Modelled from the spec: Wilder's smoothing of the gains of the price
changes, as §4.1 describes it — the first average (available at bar
index `p`) is the simple mean of the first `p` changes, and each
subsequent average is `(prev_avg*(p-1) + current)/p`.  This definition
exists only to be compared against the source's `avg_gain`. -/
def wilder_avg_gain (xs : List ℚ) (p i : ℕ) : Option ℚ :=
  let g := ((xs.zip xs.tail).map (fun pr => pr.2 - pr.1)).map (fun c => if 0 < c then c else 0)
  if p ≤ i ∧ i < xs.length then
    some (((g.drop p).take (i - p)).foldl
      (fun a c => (a * ((p : ℚ) - 1) + c) / (p : ℚ)) ((g.take p).sum / (p : ℚ)))
  else none

/-- Number of ledger rows with the given `type` value. -/
def countSide (side : String) (l : List TradeRec) : ℕ :=
  (l.filter (fun t => t.side == side)).length

/-- One BUY/SELL pair of the ledger: the SELL carries the same share
count, and its recorded profit is `shares·(sell price − buy price)`,
i.e. it is priced against the entry price of the paired BUY. -/
def tradePairOk (b s : TradeRec) : Bool :=
  b.side == "BUY" && s.side == "SELL" && s.shares == b.shares &&
    decide (s.profit = some ((s.shares : ℚ) * s.price - (s.shares : ℚ) * b.price))

/-- A fully paired ledger: alternating BUY/SELL from the first row on,
each SELL matched to the BUY immediately before it. -/
def ledgerOk : List TradeRec → Bool
  | [] => true
  | [_] => false
  | b :: s :: rest => tradePairOk b s && ledgerOk rest

/-- A declining 16-bar close series (each bar 1 lower).  From bar 13 on
the RSI is 0, so `RSI_OVERSOLD` buys at bar 13 and never sells; the walk
ends LONG and the forced close fires. -/
def decl16 : List ℚ := [100, 99, 98, 97, 96, 95, 94, 93, 92, 91, 90, 89, 88, 87, 86, 85]

/-- A flat (constant-price) 16-bar close series: all price changes are 0,
so `avg_gain = avg_loss = 0` once the rolling window fills. -/
def flat16 : List ℚ := List.replicate 16 (100 : ℚ)

/-- A strictly increasing 16-bar close series: all changes are gains, so
`avg_loss = 0 < avg_gain` once the rolling window fills. -/
def inc16 : List ℚ := [100, 101, 102, 103, 104, 105, 106, 107, 108, 109, 110, 111, 112, 113, 114, 115]

/-- A 16-bar series with one +1 change followed by 14 zero changes: here
the rolling-mean gain average and Wilder's smoothed gain average differ. -/
def prices100 : List ℚ := 100 :: List.replicate 15 (101 : ℚ)

/-- A 20-bar close window whose sample variance (20) and population
variance (19) differ. -/
def window20 : List ℚ := List.replicate 19 (100 : ℚ) ++ [120]

/-- A 4-point equity curve whose percentage changes have different sample
and population variance. -/
def eq4 : List ℚ := [1, 2, 1, 2]

/-- The ledger-shape invariant maintained across the bar loop: while flat
the ledger is fully paired; while long it is a fully paired prefix plus
one trailing BUY whose share count and price are the live `shares` and
`entry_price` variables. -/
def LedgerInv (s : RunState) : Prop :=
  (s.position = 0 ∧ ledgerOk s.trades = true) ∨
  (s.position = 1 ∧ ∃ pre b, s.trades = pre ++ [b] ∧ ledgerOk pre = true ∧
    b.side = "BUY" ∧ b.shares = s.shares ∧ b.price = s.entry_price)

/-- The cash invariant maintained across the bar loop: the cash balance
and share count are non-negative, as is the cash recorded on every
ledger row. -/
def MoneyInv (s : RunState) : Prop :=
  0 ≤ s.capital ∧ 0 ≤ s.shares ∧ ∀ t ∈ s.trades, 0 ≤ t.capital

/-- The run-state components the trade logic reads and writes: everything
except the equity bookkeeping.  The bar loop never reads `equity` or
`equity_curve`, so two runs agreeing on these components stay in
lock-step regardless of any previously accumulated curve. -/
def coreOf (s : RunState) : ℕ × ℚ × ℤ × ℚ × List TradeRec :=
  (s.position, s.entry_price, s.shares, s.capital, s.trades)

/-- The no-trading invariant for a run with an unrecognized strategy
name: both signal flags stay `False` on every bar, so the state machine
only appends flat equity points at the initial capital. -/
def NoTradeInv (ic : ℚ) (prior : List EquityPoint) (s : RunState) : Prop :=
  s.position = 0 ∧ s.capital = ic ∧ s.trades = [] ∧
    ∃ new, s.equity_curve = prior ++ new ∧ ∀ pt ∈ new, pt.equity = ic ∧ pt.position = 0

lemma execBar_equity_curve (strategy : String) (p : Params) (xs : List ℚ) (i : ℕ)
    (s : RunState) : (execBar strategy p xs i s).equity_curve = s.equity_curve := by
  simp only [execBar]
  split
  · split <;> rfl
  · split <;> rfl

lemma stepBar_equity_len (strategy : String) (p : Params) (xs : List ℚ) (i : ℕ)
    (s : RunState) :
    (stepBar strategy p xs i s).equity_curve.length = s.equity_curve.length + 1 := by
  simp only [stepBar]
  simp [execBar_equity_curve]

lemma foldl_equity_len (strategy : String) (p : Params) (xs : List ℚ) :
    ∀ (l : List ℕ) (s : RunState),
      (l.foldl (fun s i => stepBar strategy p xs i s) s).equity_curve.length
        = s.equity_curve.length + l.length
  | [], _ => rfl
  | i :: t, s => by
      rw [List.foldl_cons, foldl_equity_len strategy p xs t, stepBar_equity_len]
      simp
      omega

lemma forcedClose_equity_curve (xs : List ℚ) (s : RunState) :
    (forcedClose xs s).equity_curve = s.equity_curve := by
  unfold forcedClose
  split <;> rfl

lemma run_strategy_core_equity_len (ic : ℚ) (prior : List EquityPoint) (strategy : String)
    (p : Params) (xs : List ℚ) :
    (run_strategy_core ic prior strategy p xs).equity_curve.length
      = prior.length + (xs.length - 1) := by
  unfold run_strategy_core runLoop
  rw [forcedClose_equity_curve, foldl_equity_len]
  simp [initState]

set_option maxRecDepth 40000 in
/-- C2: the claim says the equity curve has exactly `N` points for an
`N`-bar series.  It is false: the bar loop is `for i in range(1, len(self.data))`,
which skips bar 0, so a fresh 2-bar run produces 1 equity point, not 2. -/
theorem c2_counterexample :
    (run_strategy_core 100000 [] "MA_CROSSOVER" {} [100, 101]).equity_curve.length
      ≠ ([100, 101] : List ℚ).length := by
  with_unfolding_all decide

/-- C2 (amended): for every run, the equity curve gains exactly
`len(BarSeries) − 1` points — one per bar for bars `1 .. N−1`, including
the final bar but excluding bar 0 — on top of whatever curve the engine
already held. -/
theorem c2_amended (ic : ℚ) (prior : List EquityPoint) (strategy : String) (p : Params)
    (xs : List ℚ) :
    (run_strategy_core ic prior strategy p xs).equity_curve.length
      = prior.length + (xs.length - 1) :=
  run_strategy_core_equity_len ic prior strategy p xs

set_option maxRecDepth 40000 in
/-- C4: the claim (Win Rate % = 0 for zero SELL trades, never an
exception) matches the intent of the `else 0` guard on line 228, but the
guard is unreachable: the forced close pairs every BUY with a SELL, so
the only reachable zero-SELL ledger is the empty ledger, and for it
`pd.DataFrame(self.trades)['type']` on line 226 raises `KeyError` before
the guard runs.  Evaluated here on a completed 3-bar run with no trades:
the equity curve is nonempty, the ledger is empty, and `calculate_metrics`
raises instead of returning 0. -/
theorem c4_theorem :
    ((Engine.mk 100000 [100, 101, 102] [] []).run_strategy "MA_CROSSOVER" {}).trades = []
      ∧ ((Engine.mk 100000 [100, 101, 102] [] []).run_strategy "MA_CROSSOVER" {}).equity_curve ≠ []
      ∧ calculate_metrics ((Engine.mk 100000 [100, 101, 102] [] []).run_strategy "MA_CROSSOVER" {})
        = MetricsOutcome.err "KeyError: type" := by
  with_unfolding_all decide

set_option maxRecDepth 40000 in
/-- C8: the claim says an unknown strategy name fails fatally before any
bar is processed, with no partial result.  It is false: `run_strategy`
has no name validation — with the unknown name "BUY_AND_HOLD" every bar
is processed (2 equity points for 3 bars) and a normal result (empty
ledger plus full equity curve) is returned. -/
theorem c8_counterexample :
    (run_strategy_core 100000 [] "BUY_AND_HOLD" {} [100, 101, 102]).trades = []
      ∧ (run_strategy_core 100000 [] "BUY_AND_HOLD" {} [100, 101, 102]).equity_curve.length = 2 := by
  with_unfolding_all decide

lemma stepBar_coreOf (strategy : String) (p : Params) (xs : List ℚ) (i : ℕ)
    (s s' : RunState) (h : coreOf s = coreOf s') :
    coreOf (stepBar strategy p xs i s) = coreOf (stepBar strategy p xs i s') := by
  obtain ⟨pos, ep, sh, cap, eq, tr, cv⟩ := s
  obtain ⟨pos', ep', sh', cap', eq', tr', cv'⟩ := s'
  simp only [coreOf, Prod.mk.injEq] at h
  obtain ⟨h1, h2, h3, h4, h5⟩ := h
  subst h1; subst h2; subst h3; subst h4; subst h5
  simp only [stepBar, execBar, coreOf]
  split <;> [skip; skip] <;> first
    | rfl
    | (split <;> rfl)

lemma foldl_coreOf (strategy : String) (p : Params) (xs : List ℚ) :
    ∀ (l : List ℕ) (s s' : RunState), coreOf s = coreOf s' →
      coreOf (l.foldl (fun s i => stepBar strategy p xs i s) s)
        = coreOf (l.foldl (fun s i => stepBar strategy p xs i s) s')
  | [], _, _, h => h
  | i :: t, s, s', h =>
      foldl_coreOf strategy p xs t _ _ (stepBar_coreOf strategy p xs i s s' h)

lemma forcedClose_trades_of_coreOf (xs : List ℚ) (s s' : RunState)
    (h : coreOf s = coreOf s') :
    (forcedClose xs s).trades = (forcedClose xs s').trades := by
  obtain ⟨pos, ep, sh, cap, eq, tr, cv⟩ := s
  obtain ⟨pos', ep', sh', cap', eq', tr', cv'⟩ := s'
  simp only [coreOf, Prod.mk.injEq] at h
  obtain ⟨h1, h2, h3, h4, h5⟩ := h
  subst h1; subst h2; subst h3; subst h4; subst h5
  simp only [forcedClose, closeRecord]
  split <;> rfl

lemma run_strategy_core_trades_prior (ic : ℚ) (prior : List EquityPoint) (strategy : String)
    (p : Params) (xs : List ℚ) :
    (run_strategy_core ic prior strategy p xs).trades
      = (run_strategy_core ic [] strategy p xs).trades := by
  unfold run_strategy_core runLoop
  apply forcedClose_trades_of_coreOf
  apply foldl_coreOf
  rfl

/-- C3: the idempotence claim is right in intent and the code violates it
by a slip: the `# Reset` block of `run_strategy` resets `self.trades` but
not `self.equity_curve`, so rerunning the engine on identical inputs
appends a second copy of the curve.  On a fresh 3-bar engine, the first
run yields a 2-point equity curve and the identical rerun a 4-point one
(so the curves differ); the ledger, which is reset, does come out
identical. -/
theorem c3_theorem :
    (((Engine.mk 100000 [100, 101, 102] [] []).run_strategy "MA_CROSSOVER" {}).run_strategy
        "MA_CROSSOVER" {}).trades
      = ((Engine.mk 100000 [100, 101, 102] [] []).run_strategy "MA_CROSSOVER" {}).trades
    ∧ ((Engine.mk 100000 [100, 101, 102] [] []).run_strategy "MA_CROSSOVER" {}).equity_curve.length
      = 2
    ∧ (((Engine.mk 100000 [100, 101, 102] [] []).run_strategy "MA_CROSSOVER" {}).run_strategy
        "MA_CROSSOVER" {}).equity_curve.length = 4
    ∧ (((Engine.mk 100000 [100, 101, 102] [] []).run_strategy "MA_CROSSOVER" {}).run_strategy
        "MA_CROSSOVER" {}).equity_curve
      ≠ ((Engine.mk 100000 [100, 101, 102] [] []).run_strategy "MA_CROSSOVER" {}).equity_curve := by
  have h1 : ((Engine.mk 100000 [100, 101, 102] [] []).run_strategy
      "MA_CROSSOVER" {}).equity_curve.length = 2 := by
    show (run_strategy_core 100000 [] "MA_CROSSOVER" {} [100, 101, 102]).equity_curve.length = 2
    rw [run_strategy_core_equity_len]
    rfl
  have h2 : (((Engine.mk 100000 [100, 101, 102] [] []).run_strategy "MA_CROSSOVER" {}).run_strategy
      "MA_CROSSOVER" {}).equity_curve.length = 4 := by
    show (run_strategy_core 100000
        (((Engine.mk 100000 [100, 101, 102] [] []).run_strategy "MA_CROSSOVER" {}).equity_curve)
        "MA_CROSSOVER" {} [100, 101, 102]).equity_curve.length = 4
    rw [run_strategy_core_equity_len, h1]
    rfl
  have h4 : (((Engine.mk 100000 [100, 101, 102] [] []).run_strategy "MA_CROSSOVER" {}).run_strategy
      "MA_CROSSOVER" {}).trades
      = ((Engine.mk 100000 [100, 101, 102] [] []).run_strategy "MA_CROSSOVER" {}).trades := by
    show (run_strategy_core 100000
        (((Engine.mk 100000 [100, 101, 102] [] []).run_strategy "MA_CROSSOVER" {}).equity_curve)
        "MA_CROSSOVER" {} [100, 101, 102]).trades
      = ((Engine.mk 100000 [100, 101, 102] [] []).run_strategy "MA_CROSSOVER" {}).trades
    exact run_strategy_core_trades_prior 100000
      (((Engine.mk 100000 [100, 101, 102] [] []).run_strategy "MA_CROSSOVER" {}).equity_curve)
      "MA_CROSSOVER" {} [100, 101, 102]
  refine ⟨h4, h1, h2, fun hEq => ?_⟩
  rw [hEq, h1] at h2
  exact absurd h2 (by norm_num)

lemma signals_fst_pos (strategy : String) (p : Params) (xs : List ℚ) (i pos : ℕ)
    (h : (signals strategy p xs i pos).1 = true) : pos = 0 := by
  unfold signals at h
  repeat' split at h
  all_goals (repeat' rw [apply_ite Prod.fst] at h)
  all_goals simp_all

lemma signals_snd_pos (strategy : String) (p : Params) (xs : List ℚ) (i pos : ℕ)
    (h : (signals strategy p xs i pos).2 = true) : pos = 1 := by
  unfold signals at h
  repeat' split at h
  all_goals (repeat' rw [apply_ite Prod.snd] at h)
  all_goals simp_all

lemma ledgerOk_append (b s : TradeRec) (hp : tradePairOk b s = true) :
    ∀ l : List TradeRec, ledgerOk l = true → ledgerOk (l ++ [b, s]) = true
  | [], _ => by simp [ledgerOk, hp]
  | [x], hl => by simp [ledgerOk] at hl
  | x :: y :: rest, hl => by
      simp only [ledgerOk, Bool.and_eq_true] at hl
      have hr := ledgerOk_append b s hp rest hl.2
      show ledgerOk (x :: y :: (rest ++ [b, s])) = true
      simp only [ledgerOk, Bool.and_eq_true]
      exact ⟨hl.1, hr⟩

lemma ledgerOk_counts : ∀ l : List TradeRec, ledgerOk l = true →
    countSide "BUY" l = countSide "SELL" l
  | [], _ => rfl
  | [x], hl => by simp [ledgerOk] at hl
  | b :: s :: rest, hl => by
      simp only [ledgerOk, Bool.and_eq_true] at hl
      obtain ⟨hp, hrest⟩ := hl
      have ih := ledgerOk_counts rest hrest
      simp only [tradePairOk, Bool.and_eq_true, beq_iff_eq, decide_eq_true_eq] at hp
      obtain ⟨⟨⟨hb, hs⟩, _⟩, _⟩ := hp
      simp only [countSide, List.filter_cons] at ih ⊢
      simp [hb, hs, ih]

lemma execBar_ledger (strategy : String) (p : Params) (xs : List ℚ) (i : ℕ) (s : RunState)
    (h : LedgerInv s) : LedgerInv (execBar strategy p xs i s) := by
  simp only [execBar]
  split
  · rename_i hc
    have hpos : s.position = 0 := signals_fst_pos _ _ _ _ _ hc.1
    have hok : ledgerOk s.trades = true := by
      rcases h with ⟨_, hok⟩ | ⟨hp1, _⟩
      · exact hok
      · rw [hpos] at hp1; cases hp1
    split
    · exact Or.inr ⟨rfl, s.trades, _, rfl, hok, rfl, rfl, rfl⟩
    · exact Or.inl ⟨hpos, hok⟩
  · split
    · rename_i hc
      rcases h with ⟨hp0, _⟩ | ⟨_, pre, b, htr, hok, hbside, hbsh, hbpr⟩
      · rw [hp0] at hc; cases hc.2
      · left
        refine ⟨rfl, ?_⟩
        show ledgerOk (s.trades ++
          [{ date := i
             side := "SELL"
             price := xs.getD i 0
             shares := s.shares
             value := (s.shares : ℚ) * xs.getD i 0
             profit := some ((s.shares : ℚ) * xs.getD i 0 - (s.shares : ℚ) * s.entry_price)
             profit_pct := some (((s.shares : ℚ) * xs.getD i 0 - (s.shares : ℚ) * s.entry_price) /
               ((s.shares : ℚ) * s.entry_price) * 100)
             capital := s.capital + (s.shares : ℚ) * xs.getD i 0 }]) = true
        rw [htr, List.append_assoc]
        refine ledgerOk_append b _ ?_ pre hok
        simp [tradePairOk, hbside, hbsh, hbpr]
    · exact h

lemma stepBar_ledger (strategy : String) (p : Params) (xs : List ℚ) (i : ℕ) (s : RunState)
    (h : LedgerInv s) : LedgerInv (stepBar strategy p xs i s) := by
  have h2 := execBar_ledger strategy p xs i s h
  simp only [stepBar]
  exact h2

lemma foldl_ledger (strategy : String) (p : Params) (xs : List ℚ) :
    ∀ (l : List ℕ) (s : RunState), LedgerInv s →
      LedgerInv (l.foldl (fun s i => stepBar strategy p xs i s) s)
  | [], _, h => h
  | i :: t, s, h => foldl_ledger strategy p xs t _ (stepBar_ledger strategy p xs i s h)

lemma runLoop_ledger (strategy : String) (p : Params) (xs : List ℚ) (ic : ℚ)
    (prior : List EquityPoint) : LedgerInv (runLoop strategy p xs (initState ic prior)) :=
  foldl_ledger strategy p xs _ _ (Or.inl ⟨rfl, rfl⟩)

lemma forcedClose_ledger (xs : List ℚ) (s : RunState) (h : LedgerInv s) :
    ledgerOk (forcedClose xs s).trades = true := by
  unfold forcedClose
  split
  · rename_i hp1
    rcases h with ⟨hp0, _⟩ | ⟨_, pre, b, htr, hok, hbside, hbsh, hbpr⟩
    · rw [hp0] at hp1; cases hp1
    · show ledgerOk (s.trades ++ [closeRecord xs s]) = true
      rw [htr, List.append_assoc]
      refine ledgerOk_append b _ ?_ pre hok
      simp [tradePairOk, closeRecord, hbside, hbsh, hbpr]
  · rename_i hne
    rcases h with ⟨_, hok⟩ | ⟨hp1, _⟩
    · exact hok
    · exact absurd hp1 hne

/-- C10: in every completed run the trade ledger alternates BUY and SELL
starting with a BUY, each SELL is matched to the BUY immediately before
it — same share count and realized profit `shares·(sell price − entry
price)` — and (via the forced final close) the number of BUY trades
equals the number of SELL trades. -/
theorem c10_theorem (ic : ℚ) (prior : List EquityPoint) (strategy : String) (p : Params)
    (xs : List ℚ) :
    ledgerOk (run_strategy_core ic prior strategy p xs).trades = true ∧
    countSide "BUY" (run_strategy_core ic prior strategy p xs).trades
      = countSide "SELL" (run_strategy_core ic prior strategy p xs).trades := by
  have hok : ledgerOk (run_strategy_core ic prior strategy p xs).trades = true :=
    forcedClose_ledger xs _ (runLoop_ledger strategy p xs ic prior)
  exact ⟨hok, ledgerOk_counts _ hok⟩

set_option maxRecDepth 40000 in
/-- C1: the claim says the PositionState at the end of every run is FLAT.
It is false: the forced-close block appends the synthesized SELL and
credits the proceeds but never resets the `position` variable, so on the
declining 16-bar series — where `RSI_OVERSOLD` buys at bar 13 and never
sells — the run ends with `position = 1` (LONG), not FLAT (and the final
equity point also records position 1). -/
theorem c1_counterexample :
    (run_strategy_core 100000 [] "RSI_OVERSOLD" {} decl16).position ≠ 0 ∧
    countSide "SELL" (run_strategy_core 100000 [] "RSI_OVERSOLD" {} decl16).trades = 1 := by
  with_unfolding_all decide

/-- C1 (amended): if the bar walk ends while LONG, a SELL at the final
bar's close is synthesized and appended, with realized profit
`shares·(final close − entry price)` computed against the entry price
exactly as for a signaled SELL, and the final ledger balances BUY and
SELL counts; however the position flag is not reset by the forced close,
so the recorded PositionState at the end of such a run remains LONG
rather than FLAT. -/
theorem c1_amended (ic : ℚ) (prior : List EquityPoint) (strategy : String) (p : Params)
    (xs : List ℚ) (h : (runLoop strategy p xs (initState ic prior)).position = 1) :
    ∃ s : RunState, s = runLoop strategy p xs (initState ic prior) ∧
      (run_strategy_core ic prior strategy p xs).trades = s.trades ++ [closeRecord xs s] ∧
      (closeRecord xs s).side = "SELL" ∧
      (closeRecord xs s).price = xs.getD (xs.length - 1) 0 ∧
      (closeRecord xs s).shares = s.shares ∧
      (closeRecord xs s).profit
        = some ((s.shares : ℚ) * xs.getD (xs.length - 1) 0 - (s.shares : ℚ) * s.entry_price) ∧
      (run_strategy_core ic prior strategy p xs).position = 1 ∧
      countSide "BUY" (run_strategy_core ic prior strategy p xs).trades
        = countSide "SELL" (run_strategy_core ic prior strategy p xs).trades := by
  refine ⟨runLoop strategy p xs (initState ic prior), rfl, ?_, rfl, rfl, rfl, rfl, ?_, ?_⟩
  · unfold run_strategy_core forcedClose
    rw [if_pos h]
  · unfold run_strategy_core forcedClose
    rw [if_pos h]
    exact h
  · exact ledgerOk_counts _ (forcedClose_ledger xs _ (runLoop_ledger strategy p xs ic prior))

set_option maxRecDepth 40000 in
/-- C1 amended witness: the declining 16-bar `RSI_OVERSOLD` run ends its
bar walk LONG, and the amended theorem applies to it. -/
theorem c1_amended_witness :
    (runLoop "RSI_OVERSOLD" {} decl16 (initState 100000 [])).position = 1 ∧
    (run_strategy_core 100000 [] "RSI_OVERSOLD" {} decl16).position = 1 := by
  refine ⟨by with_unfolding_all decide, ?_⟩
  obtain ⟨s, _, _, _, _, _, _, hpos, _⟩ :=
    c1_amended 100000 [] "RSI_OVERSOLD" {} decl16 (by with_unfolding_all decide)
  exact hpos

lemma execBar_money (strategy : String) (p : Params) (xs : List ℚ) (i : ℕ) (s : RunState)
    (hpx : 0 < xs.getD i 0) (h : MoneyInv s) : MoneyInv (execBar strategy p xs i s) := by
  obtain ⟨hcap, hsh, htr⟩ := h
  simp only [execBar]
  split
  · rename_i hc
    have hq : 0 < s.capital / xs.getD i 0 := div_pos hc.2 hpx
    have hfl : pyInt (s.capital / xs.getD i 0) = ⌊s.capital / xs.getD i 0⌋ := by
      unfold pyInt
      rw [if_pos hq.le]
    have hcost : ((pyInt (s.capital / xs.getD i 0) : ℚ)) * xs.getD i 0 ≤ s.capital := by
      have h1 : ((pyInt (s.capital / xs.getD i 0) : ℚ)) ≤ s.capital / xs.getD i 0 := by
        rw [hfl]
        exact_mod_cast Int.floor_le _
      have h2 := mul_le_mul_of_nonneg_right h1 hpx.le
      rwa [div_mul_cancel₀ _ (ne_of_gt hpx)] at h2
    split
    · rename_i hshpos
      refine ⟨by dsimp only; linarith, le_of_lt hshpos, ?_⟩
      intro t ht
      simp only [List.mem_append, List.mem_singleton] at ht
      rcases ht with hold | hnew
      · exact htr t hold
      · rw [hnew]; dsimp only; linarith
    · exact ⟨hcap, by rw [hfl]; exact Int.floor_nonneg.mpr hq.le, htr⟩
  · split
    · have hpro : 0 ≤ (s.shares : ℚ) * xs.getD i 0 :=
        mul_nonneg (by exact_mod_cast hsh) hpx.le
      refine ⟨by dsimp only; linarith, le_refl 0, ?_⟩
      intro t ht
      simp only [List.mem_append, List.mem_singleton] at ht
      rcases ht with hold | hnew
      · exact htr t hold
      · rw [hnew]; dsimp only; linarith
    · exact ⟨hcap, hsh, htr⟩

lemma stepBar_money (strategy : String) (p : Params) (xs : List ℚ) (i : ℕ) (s : RunState)
    (hpx : 0 < xs.getD i 0) (h : MoneyInv s) : MoneyInv (stepBar strategy p xs i s) := by
  have h2 := execBar_money strategy p xs i s hpx h
  simp only [stepBar]
  exact h2

lemma foldl_money (strategy : String) (p : Params) (xs : List ℚ) :
    ∀ (l : List ℕ), (∀ i ∈ l, 0 < xs.getD i 0) → ∀ s : RunState, MoneyInv s →
      MoneyInv (l.foldl (fun s i => stepBar strategy p xs i s) s)
  | [], _, _, h => h
  | i :: t, hl, s, h =>
      foldl_money strategy p xs t (fun j hj => hl j (List.mem_cons_of_mem _ hj)) _
        (stepBar_money strategy p xs i s (hl i (List.mem_cons_self _ _)) h)

lemma runLoop_money (strategy : String) (p : Params) (xs : List ℚ) (ic : ℚ)
    (prior : List EquityPoint) (hic : 0 ≤ ic) (hxs : ∀ x ∈ xs, 0 < x) :
    MoneyInv (runLoop strategy p xs (initState ic prior)) := by
  apply foldl_money
  · intro i hi
    have hlt : i < xs.length := List.mem_range.mp (List.mem_of_mem_drop hi)
    rw [List.getD_eq_getElem xs 0 hlt]
    exact hxs _ (List.getElem_mem hlt)
  · exact ⟨hic, le_refl 0, fun t ht => absurd ht (List.not_mem_nil t)⟩

/-- C9: with strictly positive closes and non-negative initial capital
the cash balance never goes negative: a BUY spends
`floor(capital/price)·price ≤ capital` and a SELL adds non-negative
proceeds.  Stated over the final state and over the cash recorded on
every ledger row (cash changes only at trades, so these rows witness
every intermediate balance). -/
theorem c9_theorem (ic : ℚ) (prior : List EquityPoint) (strategy : String) (p : Params)
    (xs : List ℚ) (hic : 0 ≤ ic) (hxs : ∀ x ∈ xs, 0 < x) :
    0 ≤ (run_strategy_core ic prior strategy p xs).capital ∧
    ∀ t ∈ (run_strategy_core ic prior strategy p xs).trades, 0 ≤ t.capital := by
  obtain ⟨hcap, hsh, htr⟩ := runLoop_money strategy p xs ic prior hic hxs
  unfold run_strategy_core forcedClose
  split
  · have hfp : 0 ≤ xs.getD (xs.length - 1) 0 := by
      cases xs with
      | nil => simp
      | cons a t =>
          have hlt : (a :: t : List ℚ).length - 1 < (a :: t : List ℚ).length := by
            simp
          rw [List.getD_eq_getElem _ 0 hlt]
          exact (hxs _ (List.getElem_mem hlt)).le
    have hpro : 0 ≤ ((runLoop strategy p xs (initState ic prior)).shares : ℚ)
        * xs.getD (xs.length - 1) 0 := mul_nonneg (by exact_mod_cast hsh) hfp
    refine ⟨by dsimp only; linarith, ?_⟩
    intro t ht
    simp only [List.mem_append, List.mem_singleton] at ht
    rcases ht with hold | hnew
    · exact htr t hold
    · rw [hnew]; simp only [closeRecord]; linarith
  · exact ⟨hcap, htr⟩

set_option maxRecDepth 40000 in
/-- C9 witness: the declining 16-bar `RSI_OVERSOLD` run (positive closes,
initial capital 100000) keeps cash non-negative throughout. -/
theorem c9_witness :
    ((0 : ℚ) ≤ 100000 ∧ ∀ x ∈ decl16, 0 < x) ∧
    0 ≤ (run_strategy_core 100000 [] "RSI_OVERSOLD" {} decl16).capital ∧
    ∀ t ∈ (run_strategy_core 100000 [] "RSI_OVERSOLD" {} decl16).trades, 0 ≤ t.capital := by
  refine ⟨⟨by norm_num, by with_unfolding_all decide⟩, ?_⟩
  exact c9_theorem 100000 [] "RSI_OVERSOLD" {} decl16 (by norm_num) (by with_unfolding_all decide)

lemma signals_unknown (strategy : String) (p : Params) (xs : List ℚ) (i pos : ℕ)
    (h1 : strategy ≠ "MA_CROSSOVER") (h2 : strategy ≠ "RSI_OVERSOLD")
    (h3 : strategy ≠ "MACD_CROSSOVER") (h4 : strategy ≠ "BOLLINGER_BANDS") :
    signals strategy p xs i pos = (false, false) := by
  unfold signals
  rw [if_neg h1, if_neg h2, if_neg h3, if_neg h4]

lemma stepBar_unknown (strategy : String) (p : Params) (xs : List ℚ) (i : ℕ)
    (h1 : strategy ≠ "MA_CROSSOVER") (h2 : strategy ≠ "RSI_OVERSOLD")
    (h3 : strategy ≠ "MACD_CROSSOVER") (h4 : strategy ≠ "BOLLINGER_BANDS")
    (ic : ℚ) (prior : List EquityPoint) (s : RunState) (h : NoTradeInv ic prior s) :
    NoTradeInv ic prior (stepBar strategy p xs i s) := by
  obtain ⟨hpos, hcap, htr, new, hcv, hnew⟩ := h
  have hsig := signals_unknown strategy p xs i s.position h1 h2 h3 h4
  simp only [stepBar, execBar, hsig]
  have hc1 : ¬((false, false).1 = true ∧ 0 < s.capital) := by simp
  have hc2 : ¬((false, false).2 = true ∧ s.position = 1) := by simp
  rw [if_neg hc1, if_neg hc2]
  have heq : (if s.position = 1 then s.capital + (s.shares : ℚ) * xs.getD i 0 else s.capital)
      = ic := by
    rw [if_neg (by rw [hpos]; exact (by norm_num)), hcap]
  refine ⟨hpos, hcap, htr, new ++ [{ date := i
                                     equity := if s.position = 1 then
                                       s.capital + (s.shares : ℚ) * xs.getD i 0 else s.capital
                                     position := s.position }], ?_, ?_⟩
  · rw [hcv, List.append_assoc]
  · intro pt hpt
    rcases List.mem_append.mp hpt with hold | hone
    · exact hnew pt hold
    · rw [List.mem_singleton.mp hone]
      exact ⟨heq, hpos⟩

lemma foldl_unknown (strategy : String) (p : Params) (xs : List ℚ)
    (h1 : strategy ≠ "MA_CROSSOVER") (h2 : strategy ≠ "RSI_OVERSOLD")
    (h3 : strategy ≠ "MACD_CROSSOVER") (h4 : strategy ≠ "BOLLINGER_BANDS")
    (ic : ℚ) (prior : List EquityPoint) :
    ∀ (l : List ℕ) (s : RunState), NoTradeInv ic prior s →
      NoTradeInv ic prior (l.foldl (fun s i => stepBar strategy p xs i s) s)
  | [], _, h => h
  | i :: t, s, h =>
      foldl_unknown strategy p xs h1 h2 h3 h4 ic prior t _
        (stepBar_unknown strategy p xs i h1 h2 h3 h4 ic prior s h)

/-- C8 (amended): an unknown strategy name is not validated at all — the
run completes normally, every bar is processed with both signal flags
`False`, and a full (but trade-free) result is returned: empty ledger,
flat position, untouched capital, and one equity point per bar 1..N−1,
each at the initial capital. -/
theorem c8_amended (ic : ℚ) (prior : List EquityPoint) (strategy : String) (p : Params)
    (xs : List ℚ)
    (h : strategy ≠ "MA_CROSSOVER" ∧ strategy ≠ "RSI_OVERSOLD" ∧
      strategy ≠ "MACD_CROSSOVER" ∧ strategy ≠ "BOLLINGER_BANDS") :
    (run_strategy_core ic prior strategy p xs).trades = [] ∧
    (run_strategy_core ic prior strategy p xs).position = 0 ∧
    (run_strategy_core ic prior strategy p xs).capital = ic ∧
    (run_strategy_core ic prior strategy p xs).equity_curve.length
      = prior.length + (xs.length - 1) ∧
    ∀ pt ∈ (run_strategy_core ic prior strategy p xs).equity_curve.drop prior.length,
      pt.equity = ic ∧ pt.position = 0 := by
  obtain ⟨h1, h2, h3, h4⟩ := h
  have hinv : NoTradeInv ic prior (runLoop strategy p xs (initState ic prior)) :=
    foldl_unknown strategy p xs h1 h2 h3 h4 ic prior _ _
      ⟨rfl, rfl, rfl, [], (List.append_nil prior).symm, fun pt hpt => absurd hpt (List.not_mem_nil pt)⟩
  obtain ⟨hpos, hcap, htr, new, hcv, hnew⟩ := hinv
  have hfc : run_strategy_core ic prior strategy p xs
      = runLoop strategy p xs (initState ic prior) := by
    unfold run_strategy_core forcedClose
    rw [if_neg (by rw [hpos]; norm_num)]
  rw [hfc]
  refine ⟨htr, hpos, hcap, ?_, ?_⟩
  · have hlen : (runLoop strategy p xs (initState ic prior)).equity_curve.length
        = (initState ic prior).equity_curve.length + ((List.range xs.length).drop 1).length :=
      foldl_equity_len strategy p xs _ _
    rw [hcv] at hlen
    rw [hcv]
    simp only [List.length_append, List.length_drop, List.length_range, initState] at hlen ⊢
    omega
  · intro pt hpt
    rw [hcv, List.drop_left] at hpt
    exact hnew pt hpt

/-- C8 amended witness: the unknown name "BUY_AND_HOLD" over a 3-bar
series completes with no trades and two flat equity points. -/
theorem c8_amended_witness :
    ((("BUY_AND_HOLD" : String) ≠ "MA_CROSSOVER" ∧ ("BUY_AND_HOLD" : String) ≠ "RSI_OVERSOLD" ∧
      ("BUY_AND_HOLD" : String) ≠ "MACD_CROSSOVER" ∧
      ("BUY_AND_HOLD" : String) ≠ "BOLLINGER_BANDS")) ∧
    (run_strategy_core 100000 [] "BUY_AND_HOLD" {} [100, 101, 102]).trades = [] ∧
    (run_strategy_core 100000 [] "BUY_AND_HOLD" {} [100, 101, 102]).position = 0 ∧
    (run_strategy_core 100000 [] "BUY_AND_HOLD" {} [100, 101, 102]).capital = 100000 := by
  have hne : ("BUY_AND_HOLD" : String) ≠ "MA_CROSSOVER" ∧
      ("BUY_AND_HOLD" : String) ≠ "RSI_OVERSOLD" ∧
      ("BUY_AND_HOLD" : String) ≠ "MACD_CROSSOVER" ∧
      ("BUY_AND_HOLD" : String) ≠ "BOLLINGER_BANDS" := by
    refine ⟨?_, ?_, ?_, ?_⟩ <;> decide
  obtain ⟨ht, hp, hc, _, _⟩ := c8_amended 100000 [] "BUY_AND_HOLD" {} [100, 101, 102] hne
  exact ⟨hne, ht, hp, hc⟩

set_option maxRecDepth 40000 in
/-- C5: the claim says RSI is 100 whenever the average loss is 0,
including the flat-series case.  The flat subcase is false: on a
constant-price series `avg_gain = avg_loss = 0`, pandas computes
`rs = 0/0 = NaN` and `rsi = NaN` — undefined, not 100. -/
theorem c5_counterexample :
    avg_loss flat16 14 15 = some 0 ∧ calculate_rsi flat16 14 15 = none ∧
    calculate_rsi flat16 14 15 ≠ some 100 := by
  with_unfolding_all decide

/-- C5 (amended): at any index where the rolling averages are defined and
the average loss is exactly 0, the RSI is 100 when the average gain is
positive (float division yields `+inf` and `100 − 100/(1+inf) = 100`,
with no exception); but when the average gain is also 0 (flat series)
`rs = 0/0 = NaN` and the RSI is undefined, not 100. -/
theorem c5_amended (xs : List ℚ) (period i : ℕ) (g : ℚ)
    (hl : avg_loss xs period i = some 0) (hg : avg_gain xs period i = some g) :
    calculate_rsi xs period i = if g = 0 then none else some 100 := by
  unfold calculate_rsi
  rw [hg, hl]
  simp

set_option maxRecDepth 40000 in
/-- C5 amended witness: on the strictly increasing 16-bar series the
average loss at index 15 is 0, the average gain is 1, and the RSI is
100. -/
theorem c5_amended_witness :
    (avg_loss inc16 14 15 = some 0 ∧ avg_gain inc16 14 15 = some 1) ∧
    calculate_rsi inc16 14 15 = if (1 : ℚ) = 0 then none else some 100 := by
  refine ⟨⟨by with_unfolding_all decide, by with_unfolding_all decide⟩, ?_⟩
  exact c5_amended inc16 14 15 1 (by with_unfolding_all decide) (by with_unfolding_all decide)

lemma sum_take_succ (l : List ℚ) (n : ℕ) (h : n < l.length) :
    (l.take (n + 1)).sum = (l.take n).sum + l.getD n 0 := by
  rw [List.take_succ, List.sum_append]
  congr 1
  rw [List.getElem?_eq_getElem h, List.getD_eq_getElem l 0 h]
  simp

lemma windowAt_sum (l : List ℚ) (w i : ℕ) :
    (windowAt l w i).sum = (l.take (i + 1)).sum - (l.take (i + 1 - w)).sum := by
  unfold windowAt
  have h2 := congrArg List.sum (List.take_append_drop (i + 1 - w) (l.take (i + 1)))
  rw [List.sum_append, List.take_take, Nat.min_eq_left (Nat.sub_le _ _)] at h2
  linarith

lemma rollingMeanAt_succ (l : List ℚ) (w i : ℕ) (hwi : w ≤ i + 1)
    (hlen : i + 1 < l.length) :
    rollingMeanAt l w (i + 1)
      = some (((windowAt l w i).sum + l.getD (i + 1) 0 - l.getD (i + 1 - w) 0) / (w : ℚ)) := by
  unfold rollingMeanAt
  rw [if_pos (by omega)]
  congr 1
  rw [windowAt_sum, windowAt_sum]
  have e1 : (l.take (i + 1 + 1)).sum = (l.take (i + 1)).sum + l.getD (i + 1) 0 :=
    sum_take_succ _ _ hlen
  have e2 : (l.take (i + 1 + 1 - w)).sum = (l.take (i + 1 - w)).sum + l.getD (i + 1 - w) 0 := by
    have hsub : i + 1 + 1 - w = (i + 1 - w) + 1 := by omega
    rw [hsub]
    exact sum_take_succ _ _ (by omega)
  rw [e1, e2]
  ring

set_option maxRecDepth 40000 in
/-- C6: the claim says the RSI averages use Wilder's smoothing.  It is
false: `_calculate_rsi` uses a plain `rolling(period).mean()`.  On the
series with one +1 change followed by zero changes, the code's average
gain at index 15 is 0 (the +1 left the window), while Wilder's smoothed
average is 13/196. -/
theorem c6_counterexample :
    avg_gain prices100 14 15 ≠ wilder_avg_gain prices100 14 15 ∧
    avg_gain prices100 14 15 = some 0 ∧
    wilder_avg_gain prices100 14 15 = some (13 / 196) := by
  with_unfolding_all decide

/-- C6 (amended): the average gain and loss are simple trailing rolling
means of the gain/loss series (whose index-0 entry is the 0 that
`.where` substitutes for the `NaN` first diff), so consecutive defined
averages satisfy the sliding-window recurrence
`avg[i+1] = avg[i] + (newest − dropped)/p` — not Wilder's
`(prev·(p−1) + current)/p`. -/
theorem c6_amended (xs : List ℚ) (p i : ℕ) (g l : ℚ)
    (hg : avg_gain xs p i = some g) (hl : avg_loss xs p i = some l)
    (hglen : i + 1 < (gainsList xs).length) (hllen : i + 1 < (lossesList xs).length) :
    avg_gain xs p (i + 1)
      = some (g + ((gainsList xs).getD (i + 1) 0 - (gainsList xs).getD (i + 1 - p) 0) / (p : ℚ)) ∧
    avg_loss xs p (i + 1)
      = some (l + ((lossesList xs).getD (i + 1) 0 - (lossesList xs).getD (i + 1 - p) 0) / (p : ℚ)) := by
  unfold avg_gain rollingMeanAt at hg
  unfold avg_loss rollingMeanAt at hl
  by_cases hwi : p ≤ i + 1
  · rw [if_pos hwi] at hg hl
    have hg2 := Option.some.inj hg
    have hl2 := Option.some.inj hl
    constructor
    · rw [avg_gain, rollingMeanAt_succ _ _ _ hwi hglen, ← hg2]
      congr 1
      ring
    · rw [avg_loss, rollingMeanAt_succ _ _ _ hwi hllen, ← hl2]
      congr 1
      ring
  · rw [if_neg hwi] at hg
    cases hg

set_option maxRecDepth 40000 in
/-- C6 amended witness: on the one-gain series, the average gain slides
from 1/14 at index 14 to 1/14 + (0 − 1)/14 = 0 at index 15, per the
rolling-mean recurrence. -/
theorem c6_amended_witness :
    (avg_gain prices100 14 14 = some (1 / 14) ∧ avg_loss prices100 14 14 = some 0) ∧
    avg_gain prices100 14 15
      = some (1 / 14 + ((gainsList prices100).getD 15 0 - (gainsList prices100).getD 1 0) / (14 : ℚ)) ∧
    avg_loss prices100 14 15
      = some (0 + ((lossesList prices100).getD 15 0 - (lossesList prices100).getD 1 0) / (14 : ℚ)) := by
  refine ⟨⟨by with_unfolding_all decide, by with_unfolding_all decide⟩, ?_⟩
  exact c6_amended prices100 14 14 (1 / 14) 0 (by with_unfolding_all decide)
    (by with_unfolding_all decide) (by with_unfolding_all decide) (by with_unfolding_all decide)

lemma windowAt_length (xs : List ℚ) (w i : ℕ) (h1 : w ≤ i + 1) (h2 : i < xs.length) :
    (windowAt xs w i).length = w := by
  unfold windowAt
  simp only [List.length_drop, List.length_take]
  omega

lemma sampleVariance_eq (l : List ℚ) (h : 2 ≤ l.length) :
    sampleVariance l = ((l.length : ℚ) / ((l.length : ℚ) - 1)) * populationVariance l := by
  simp only [sampleVariance, populationVariance]
  have hn : (2 : ℚ) ≤ (l.length : ℚ) := by exact_mod_cast h
  have h0 : (l.length : ℚ) ≠ 0 := by linarith
  have h1 : (l.length : ℚ) - 1 ≠ 0 := ne_of_gt (by linarith)
  field_simp
  ring

set_option maxRecDepth 40000 in
/-- C7: the claim says both the Bollinger band deviation and the Sharpe
denominator are population standard deviations.  Both are false: pandas
`.std()` defaults to `ddof=1` (sample).  On a 20-bar window of nineteen
100s and one 120, the squared band deviation is 20 while the population
variance is 19; on the equity curve [1,2,1,2] the squared Sharpe
denominator is 3/4 while the population variance is 1/2. -/
theorem c7_counterexample :
    bb_std_sq window20 19 ≠ some (populationVariance (windowAt window20 20 19)) ∧
    sharpe_std_sq eq4 ≠ populationVariance (pct_change eq4) := by
  with_unfolding_all decide

/-- C7 (amended): both standard deviations are sample (`ddof=1`)
deviations, mutually consistent: the squared Bollinger deviation is
`(20/19)` times the population variance of the trailing 20-bar window,
and the squared Sharpe denominator is `n/(n−1)` times the population
variance of the `n` per-bar equity changes. -/
theorem c7_amended (xs : List ℚ) (i : ℕ) (h19 : 19 ≤ i) (hlen : i < xs.length)
    (eq : List ℚ) (heq : 2 ≤ (pct_change eq).length) :
    bb_std_sq xs i = some (((20 : ℚ) / 19) * populationVariance (windowAt xs 20 i)) ∧
    sharpe_std_sq eq
      = (((pct_change eq).length : ℚ) / (((pct_change eq).length : ℚ) - 1))
        * populationVariance (pct_change eq) := by
  constructor
  · unfold bb_std_sq
    rw [if_pos (by omega)]
    have hwl : (windowAt xs 20 i).length = 20 := windowAt_length xs 20 i (by omega) hlen
    rw [sampleVariance_eq _ (by rw [hwl]; norm_num), hwl]
    norm_num
  · exact sampleVariance_eq _ heq

set_option maxRecDepth 40000 in
/-- C7 amended witness: the `n/(n−1)` relation evaluated on the concrete
window and equity curve of the counterexample. -/
theorem c7_amended_witness :
    (19 < window20.length ∧ 2 ≤ (pct_change eq4).length) ∧
    bb_std_sq window20 19 = some (((20 : ℚ) / 19) * populationVariance (windowAt window20 20 19)) ∧
    sharpe_std_sq eq4
      = (((pct_change eq4).length : ℚ) / (((pct_change eq4).length : ℚ) - 1))
        * populationVariance (pct_change eq4) := by
  refine ⟨⟨by with_unfolding_all decide, by with_unfolding_all decide⟩, ?_⟩
  exact c7_amended window20 19 (le_refl 19) (by with_unfolding_all decide) eq4
    (by with_unfolding_all decide)
